import Mathlib

/-!
Verification of the polls core of `Serrones/django_tutorial`.

The repository ships only `polls/tests.py` and `polls/admin.py`; the
data model (`polls/models.py`) and the views (`polls/views.py`) that the
specification describes are not part of the provided sources.  Following
the specification (sections 3, 4.1, 4.2, 4.3), the core — the Visibility
Policy, the Listing Service and the Voting Service over a Record Store of
`Question` and `Choice` records — is modelled here as pure functions over
an explicit store.  Timestamps are integers (seconds); identifiers are
naturals.
-/

namespace Polls

/-- Modelled from the spec: a Question record (spec §3) — the missing
`polls/models.py` class `Question` with an identifier, a text and a
publish timestamp (`pub_date`). -/
structure Question where
  id : Nat
  text : String
  pubDate : Int
deriving DecidableEq, Repr

/-- Modelled from the spec: a Choice record (spec §3) — the missing
`polls/models.py` class `Choice` with an identifier, the owning question's
identifier, a text and a vote tally (`votes`, non-negative, so a `Nat`). -/
structure Choice where
  id : Nat
  questionId : Nat
  text : String
  votes : Nat
deriving DecidableEq, Repr

/-- Modelled from the spec: the Record Store (spec §2, §6) holding the two
tables `Question` and `Choice`. -/
structure Store where
  questions : List Question
  choices : List Choice
deriving DecidableEq, Repr

/-- Modelled from the spec: `isPublished(question, now)` (spec §4.1):
true iff `question.publishTimestamp <= now`. -/
def isPublished (q : Question) (now : Int) : Bool :=
  q.pubDate ≤ now

/-- Number of choices owned by the question with identifier `qid`. -/
def choiceCount (s : Store) (qid : Nat) : Nat :=
  (s.choices.filter (fun c => c.questionId == qid)).length

/-- Modelled from the spec: `isDisplayed(question, now)` (spec §4.1):
published and owning at least one choice. -/
def isDisplayed (s : Store) (q : Question) (now : Int) : Bool :=
  isPublished q now && decide (1 ≤ choiceCount s q.id)

/-- The listing order (spec §4.2): publish timestamp descending, ties
broken by identifier descending. -/
def qle (a b : Question) : Prop :=
  b.pubDate < a.pubDate ∨ (a.pubDate = b.pubDate ∧ b.id ≤ a.id)

instance : DecidableRel qle := fun a b =>
  inferInstanceAs (Decidable (b.pubDate < a.pubDate ∨ (a.pubDate = b.pubDate ∧ b.id ≤ a.id)))

instance : IsTotal Question qle := ⟨by
  intro a b
  unfold qle
  omega⟩

instance : IsTrans Question qle := ⟨by
  intro a b c
  unfold qle
  omega⟩

/-- Modelled from the spec: `listRecentQuestions(now, limit)` (spec §4.2):
all displayed questions, ordered by publish timestamp descending with ties
broken by identifier descending, truncated to `limit` entries. -/
def listRecentQuestions (s : Store) (now : Int) (limit : Nat) : List Question :=
  ((s.questions.filter (fun q => isDisplayed s q now)).insertionSort qle).take limit

/-- Look up a question by identifier in the store. -/
def findQuestion (s : Store) (qid : Nat) : Option Question :=
  s.questions.find? (fun q => q.id == qid)

/-- The error taxonomy of the core (spec §7). -/
inductive VoteError where
  | NotFound
  | InvalidChoice
deriving DecidableEq, Repr

/-- Modelled from the spec: `getQuestionForInteraction(questionId, now)`
(spec §4.3): fails with `NotFound` when no question with that identifier
exists or the question is not displayed at `now`. -/
def getQuestionForInteraction (s : Store) (qid : Nat) (now : Int) :
    Except VoteError Question :=
  match findQuestion s qid with
  | none => .error .NotFound
  | some q => if isDisplayed s q now then .ok q else .error .NotFound

/-- Increment the tally of the choice identified by `cid` and owned by
question `qid`; leave any other choice unchanged. -/
def bumpChoice (qid cid : Nat) (c : Choice) : Choice :=
  if c.id == cid && c.questionId == qid then { c with votes := c.votes + 1 } else c

/-- The store after a successful vote for choice `cid` of question `qid`. -/
def bumpStore (s : Store) (qid cid : Nat) : Store :=
  { s with choices := s.choices.map (bumpChoice qid cid) }

/-- Modelled from the spec: `recordVote(questionId, choiceId, now)`
(spec §4.3): resolves the question via `getQuestionForInteraction`
(propagating `NotFound`), fails with `InvalidChoice` when no choice with
identifier `choiceId` is owned by the question, and otherwise increments
the matched choice's tally by one and returns the question identifier as
the reference to the results. -/
def recordVote (s : Store) (qid cid : Nat) (now : Int) :
    Except VoteError (Store × Nat) :=
  match getQuestionForInteraction s qid now with
  | .error e => .error e
  | .ok q =>
    match s.choices.find? (fun c => c.id == cid && c.questionId == q.id) with
    | none => .error .InvalidChoice
    | some _ => .ok (bumpStore s q.id cid, qid)

/-- The state of the store after a vote submission: the updated store on
success, the unchanged store on failure (spec §4.3: no mutation on
failure). -/
def recordVoteStore (s : Store) (qid cid : Nat) (now : Int) : Store :=
  match recordVote s qid cid now with
  | .ok (s2, _) => s2
  | .error _ => s

/-- The vote tally of the choice identified by `cid`, when it exists. -/
def tally (s : Store) (cid : Nat) : Option Nat :=
  (s.choices.find? (fun c => c.id == cid)).map Choice.votes

/-- Modelled from the spec: administrative creation of a choice
(spec §3: vote tally starts at 0; `tests.py` `create_question` creates
choices with `votes=0`). -/
def createChoice (s : Store) (cid qid : Nat) (t : String) : Store :=
  { s with choices := s.choices ++ [{ id := cid, questionId := qid, text := t, votes := 0 }] }

/-- Modelled from the spec: `was_published_recently` of the missing
`polls/models.py`, reconstructed from the test suite
(`QuestionModelTests`) and the admin column: true exactly when `pub_date`
lies within the day before `now`, not in the future (a day is 86400
seconds). -/
def was_published_recently (q : Question) (now : Int) : Bool :=
  decide (now - 86400 < q.pubDate ∧ q.pubDate ≤ now)

/-- A small concrete store used to instantiate the theorems: two
published questions, question 1 owning choices 1 and 2, question 2 owning
choice 3. -/
def sampleStore : Store :=
  { questions := [⟨1, "Q1", 10⟩, ⟨2, "Q2", 20⟩],
    choices := [⟨1, 1, "A", 0⟩, ⟨2, 1, "B", 3⟩, ⟨3, 2, "C", 5⟩] }

/-! ### Helper lemmas -/

/-- `find?` by a key recovers a member of a list whose keys are distinct. -/
theorem find?_key_eq_of_mem {α : Type _} (key : α → Nat) :
    ∀ (l : List α), (l.map key).Nodup → ∀ c ∈ l,
      l.find? (fun x => key x == key c) = some c := by
  intro l
  induction l with
  | nil => intro _ c hc; simp at hc
  | cons a t ih =>
    intro hnd c hc
    simp only [List.map_cons, List.nodup_cons] at hnd
    rcases List.mem_cons.mp hc with h | h
    · subst h
      exact List.find?_cons_of_pos _ (by simp)
    · have hne : key a ≠ key c := by
        intro he
        exact hnd.1 (he ▸ List.mem_map_of_mem key h)
      rw [List.find?_cons_of_neg _ (by simpa using hne)]
      exact ih hnd.2 c h

/-- `bumpChoice` never changes a choice's identifier. -/
theorem bumpChoice_id (qid cid : Nat) (c : Choice) :
    (bumpChoice qid cid c).id = c.id := by
  unfold bumpChoice
  split <;> rfl

/-- `bumpChoice` never changes a choice's owning question. -/
theorem bumpChoice_questionId (qid cid : Nat) (c : Choice) :
    (bumpChoice qid cid c).questionId = c.questionId := by
  unfold bumpChoice
  split <;> rfl

/-- `bumpStore` keeps the questions table untouched. -/
theorem bumpStore_questions (s : Store) (qid cid : Nat) :
    (bumpStore s qid cid).questions = s.questions := rfl

/-- `bumpStore` preserves the multiset of choice identifiers. -/
theorem bumpStore_choiceIds (s : Store) (qid cid : Nat) :
    (bumpStore s qid cid).choices.map Choice.id = s.choices.map Choice.id := by
  unfold bumpStore
  simp only [List.map_map]
  exact List.map_congr_left (fun c _ => bumpChoice_id qid cid c)

/-- `bumpStore` preserves every question's choice count. -/
theorem choiceCount_bumpStore (s : Store) (qid cid qid2 : Nat) :
    choiceCount (bumpStore s qid cid) qid2 = choiceCount s qid2 := by
  unfold choiceCount bumpStore
  simp only [List.filter_map, List.length_map]
  congr 1
  exact List.filter_congr (fun c _ => by simp [bumpChoice_questionId])

/-- `bumpStore` preserves displayedness. -/
theorem isDisplayed_bumpStore (s : Store) (qid cid : Nat) (q : Question) (now : Int) :
    isDisplayed (bumpStore s qid cid) q now = isDisplayed s q now := by
  unfold isDisplayed
  rw [choiceCount_bumpStore]

/-- A successful vote: a displayed question together with one of its
choices makes `recordVote` return the bumped store and the question's
identifier. -/
theorem recordVote_ok (s : Store) (q : Question) (c : Choice) (now : Int)
    (hqn : (s.questions.map Question.id).Nodup)
    (hq : q ∈ s.questions) (hd : isDisplayed s q now = true)
    (hc : c ∈ s.choices) (hown : c.questionId = q.id) :
    recordVote s q.id c.id now = .ok (bumpStore s q.id c.id, q.id) := by
  have hfind : findQuestion s q.id = some q :=
    find?_key_eq_of_mem Question.id s.questions hqn q hq
  have hp : (fun x => x.id == c.id && x.questionId == q.id) c = true := by
    simp [hown]
  unfold recordVote getQuestionForInteraction
  rw [hfind]
  simp only [hd, if_true]
  cases hfc : s.choices.find? (fun x => x.id == c.id && x.questionId == q.id) with
  | none => exact absurd hp (List.find?_eq_none.mp hfc c hc)
  | some c0 => rfl

/-- A vote on a displayed question with a choice identifier that no choice
of that question carries fails with `InvalidChoice`. -/
theorem recordVote_invalid (s : Store) (q : Question) (cid : Nat) (now : Int)
    (hqn : (s.questions.map Question.id).Nodup)
    (hq : q ∈ s.questions) (hd : isDisplayed s q now = true)
    (hbad : ∀ c ∈ s.choices, ¬(c.id = cid ∧ c.questionId = q.id)) :
    recordVote s q.id cid now = .error .InvalidChoice := by
  have hfind : findQuestion s q.id = some q :=
    find?_key_eq_of_mem Question.id s.questions hqn q hq
  have hnone : s.choices.find? (fun x => x.id == cid && x.questionId == q.id) = none := by
    rw [List.find?_eq_none]
    intro x hx
    simp only [Bool.and_eq_true, beq_iff_eq]
    exact fun h => hbad x hx ⟨h.1, h.2⟩
  unfold recordVote getQuestionForInteraction
  rw [hfind]
  simp only [hd, if_true]
  rw [hnone]

/-- After bumping choice `cid` of question `qid`, the tally of the bumped
choice has grown by exactly one. -/
theorem tally_bumpStore_self (s : Store) (qid : Nat) (c : Choice)
    (hcn : (s.choices.map Choice.id).Nodup)
    (hc : c ∈ s.choices) (hown : c.questionId = qid) :
    tally (bumpStore s qid c.id) c.id = some (c.votes + 1) := by
  have hfind : s.choices.find? (fun x => x.id == c.id) = some c :=
    find?_key_eq_of_mem Choice.id s.choices hcn c hc
  unfold tally bumpStore
  simp only [List.find?_map]
  have hcomp : ((fun x : Choice => x.id == c.id) ∘ bumpChoice qid c.id) =
      (fun x : Choice => x.id == c.id) := by
    funext x
    simp [Function.comp, bumpChoice_id]
  rw [hcomp, hfind]
  simp [bumpChoice, hown]

/-- Bumping choice `cid` leaves the tally of every choice with a different
identifier unchanged. -/
theorem tally_bumpStore_other (s : Store) (qid cid : Nat) (c' : Choice)
    (hcn : (s.choices.map Choice.id).Nodup)
    (hc' : c' ∈ s.choices) (hne : c'.id ≠ cid) :
    tally (bumpStore s qid cid) c'.id = tally s c'.id := by
  have hfind : s.choices.find? (fun x => x.id == c'.id) = some c' :=
    find?_key_eq_of_mem Choice.id s.choices hcn c' hc'
  unfold tally bumpStore
  simp only [List.find?_map]
  have hcomp : ((fun x : Choice => x.id == c'.id) ∘ bumpChoice qid cid) =
      (fun x : Choice => x.id == c'.id) := by
    funext x
    simp [Function.comp, bumpChoice_id]
  rw [hcomp, hfind]
  simp [bumpChoice, hne]

/-- Two members of a list with distinct keys that share a key are equal. -/
theorem eq_of_mem_of_key_eq {α : Type _} (key : α → Nat) (l : List α)
    (hnd : (l.map key).Nodup) {a b : α}
    (ha : a ∈ l) (hb : b ∈ l) (h : key a = key b) : a = b := by
  have h1 := find?_key_eq_of_mem key l hnd a ha
  have h2 := find?_key_eq_of_mem key l hnd b hb
  rw [h] at h1
  rw [h1] at h2
  exact (Option.some_injective _ h2)

/-! ### Claims -/

/-- C1: for a question `q` displayed at `now` and a choice `c` owned by
`q`, `recordVote q.id c.id now` succeeds, increases `c`'s tally by exactly
1, and leaves the tally of every other choice (of `q` or of any other
question) unchanged. -/
theorem recordVote_valid_increments (s : Store) (q : Question) (c : Choice) (now : Int)
    (hqn : (s.questions.map Question.id).Nodup)
    (hcn : (s.choices.map Choice.id).Nodup)
    (hq : q ∈ s.questions) (hd : isDisplayed s q now = true)
    (hc : c ∈ s.choices) (hown : c.questionId = q.id) :
    recordVote s q.id c.id now = .ok (bumpStore s q.id c.id, q.id)
    ∧ tally (recordVoteStore s q.id c.id now) c.id = some (c.votes + 1)
    ∧ ∀ c' ∈ s.choices, c'.id ≠ c.id →
        tally (recordVoteStore s q.id c.id now) c'.id = tally s c'.id := by
  have hok := recordVote_ok s q c now hqn hq hd hc hown
  have hstore : recordVoteStore s q.id c.id now = bumpStore s q.id c.id := by
    unfold recordVoteStore
    rw [hok]
  refine ⟨hok, ?_, ?_⟩
  · rw [hstore]
    exact tally_bumpStore_self s q.id c hcn hc hown
  · intro c' hc' hne
    rw [hstore]
    exact tally_bumpStore_other s q.id c.id c' hcn hc' hne

/-- Witness for C1: voting for choice 2 of question 1 in the sample
store. -/
theorem recordVote_valid_increments_witness :
    recordVote sampleStore 1 2 100 = .ok (bumpStore sampleStore 1 2, 1)
    ∧ tally (recordVoteStore sampleStore 1 2 100) 2 = some (3 + 1)
    ∧ ∀ c' ∈ sampleStore.choices, c'.id ≠ 2 →
        tally (recordVoteStore sampleStore 1 2 100) c'.id = tally sampleStore c'.id :=
  recordVote_valid_increments sampleStore ⟨1, "Q1", 10⟩ ⟨2, 1, "B", 3⟩ 100
    (by decide) (by decide) (by decide) (by decide) (by decide) rfl

/-- C2: for a question `q` displayed at `now` and a `choiceId` that
identifies no choice of `q`, `recordVote q.id choiceId now` fails with
`InvalidChoice` (not `NotFound`) and the store — hence every tally — is
unchanged. -/
theorem recordVote_invalidChoice_no_mutation (s : Store) (q : Question) (cid : Nat) (now : Int)
    (hqn : (s.questions.map Question.id).Nodup)
    (hq : q ∈ s.questions) (hd : isDisplayed s q now = true)
    (hbad : ∀ c ∈ s.choices, ¬(c.id = cid ∧ c.questionId = q.id)) :
    recordVote s q.id cid now = .error .InvalidChoice
    ∧ recordVoteStore s q.id cid now = s := by
  have h := recordVote_invalid s q cid now hqn hq hd hbad
  refine ⟨h, ?_⟩
  unfold recordVoteStore
  rw [h]

/-- Witness for C2: voting on question 1 with choice 3, which belongs to
question 2. -/
theorem recordVote_invalidChoice_no_mutation_witness :
    recordVote sampleStore 1 3 100 = .error .InvalidChoice
    ∧ recordVoteStore sampleStore 1 3 100 = sampleStore :=
  recordVote_invalidChoice_no_mutation sampleStore ⟨1, "Q1", 10⟩ 3 100
    (by decide) (by decide) (by decide) (by decide)

/-- C3: `getQuestionForInteraction questionId now` fails (with `NotFound`,
the only failure it can produce) exactly when no question carries that
identifier, or the question's publish timestamp is in the future, or the
question owns zero choices — so future-dated and choiceless questions are
indistinguishable from nonexistent ones. -/
theorem getQuestionForInteraction_notFound_iff (s : Store) (qid : Nat) (now : Int)
    (hqn : (s.questions.map Question.id).Nodup) :
    getQuestionForInteraction s qid now = .error .NotFound
      ↔ (∀ q ∈ s.questions, q.id ≠ qid)
        ∨ ∃ q ∈ s.questions, q.id = qid ∧ (now < q.pubDate ∨ choiceCount s qid = 0) := by
  cases hf : findQuestion s qid with
  | none =>
    have hg : getQuestionForInteraction s qid now = .error .NotFound := by
      unfold getQuestionForInteraction
      rw [hf]
    refine iff_of_true hg (Or.inl ?_)
    intro q hq he
    have := List.find?_eq_none.mp hf q hq
    simp [he] at this
  | some q0 =>
    have hg : getQuestionForInteraction s qid now =
        if isDisplayed s q0 now then .ok q0 else .error .NotFound := by
      unfold getQuestionForInteraction
      rw [hf]
    have hq0m : q0 ∈ s.questions := List.mem_of_find?_eq_some hf
    have hq0id : q0.id = qid := by
      have := List.find?_some hf
      simpa using this
    have huniq : ∀ q ∈ s.questions, q.id = qid → q = q0 := by
      intro q hq hid
      exact eq_of_mem_of_key_eq Question.id s.questions hqn hq hq0m (by rw [hid, hq0id])
    rw [hg]
    by_cases hd : isDisplayed s q0 now = true
    · rw [if_pos hd]
      refine iff_of_false (by simp) ?_
      rintro (hall | ⟨q, hqm, hid, hviol⟩)
      · exact hall q0 hq0m hq0id
      · rw [huniq q hqm hid] at hviol
        have hd2 := hd
        simp only [isDisplayed, isPublished, Bool.and_eq_true, decide_eq_true_eq] at hd2
        rw [hq0id] at hd2
        omega
    · rw [if_neg hd]
      refine iff_of_true rfl (Or.inr ⟨q0, hq0m, hq0id, ?_⟩)
      simp only [isDisplayed, isPublished, Bool.and_eq_true, decide_eq_true_eq, not_and,
        Bool.not_eq_true] at hd
      rw [hq0id] at hd
      omega

/-- Witness for C3: in the sample store, looking up the nonexistent
question 5 fails, matching the right-hand side of the characterisation. -/
theorem getQuestionForInteraction_notFound_iff_witness :
    getQuestionForInteraction sampleStore 5 100 = .error .NotFound
      ↔ (∀ q ∈ sampleStore.questions, q.id ≠ 5)
        ∨ ∃ q ∈ sampleStore.questions, q.id = 5 ∧ (100 < q.pubDate ∨ choiceCount sampleStore 5 = 0) :=
  getQuestionForInteraction_notFound_iff sampleStore 5 100 (by decide)

/-- C4: a question appears in `listRecentQuestions now limit` only if it
is displayed at `now`: its publish timestamp is at most `now` and it owns
at least one choice. -/
theorem listRecentQuestions_mem_displayed (s : Store) (now : Int) (limit : Nat)
    (q : Question) (hm : q ∈ listRecentQuestions s now limit) :
    q.pubDate ≤ now ∧ 1 ≤ choiceCount s q.id := by
  unfold listRecentQuestions at hm
  have h1 : q ∈ (s.questions.filter fun x => isDisplayed s x now).insertionSort qle :=
    (List.take_sublist _ _).subset hm
  have h2 : q ∈ s.questions.filter fun x => isDisplayed s x now :=
    (List.perm_insertionSort qle _).mem_iff.mp h1
  have h3 := (List.mem_filter.mp h2).2
  simpa [isDisplayed, isPublished] using h3

/-- Witness for C4: question 1 appears in the sample listing and is
indeed displayed. -/
theorem listRecentQuestions_mem_displayed_witness :
    (10 : Int) ≤ 100 ∧ 1 ≤ choiceCount sampleStore 1 :=
  listRecentQuestions_mem_displayed sampleStore 100 5 ⟨1, "Q1", 10⟩ (by decide)

/-- C5: when question identifiers are distinct, `listRecentQuestions` is
sorted strictly by publish timestamp descending with ties broken by
identifier descending, and has at most `limit` entries. -/
theorem listRecentQuestions_sorted_le_limit (s : Store) (now : Int) (limit : Nat)
    (hqn : (s.questions.map Question.id).Nodup) :
    (listRecentQuestions s now limit).Pairwise
      (fun a b => b.pubDate < a.pubDate ∨ (a.pubDate = b.pubDate ∧ b.id < a.id))
    ∧ (listRecentQuestions s now limit).length ≤ limit := by
  constructor
  · have hids : s.questions.Pairwise (fun a b => a.id ≠ b.id) :=
      List.pairwise_map.mp hqn
    have hids2 : ((s.questions.filter fun x => isDisplayed s x now).insertionSort qle).Pairwise
        (fun a b => a.id ≠ b.id) :=
      ((List.perm_insertionSort qle _).pairwise_iff fun h => h.symm).mpr
        (hids.filter _)
    have hsorted : ((s.questions.filter fun x => isDisplayed s x now).insertionSort qle).Pairwise
        qle :=
      List.sorted_insertionSort qle _
    refine List.Pairwise.sublist (List.take_sublist _ _) ((hsorted.and hids2).imp ?_)
    intro a b h
    obtain ⟨hle, hne⟩ := h
    unfold qle at hle
    omega
  · unfold listRecentQuestions
    rw [List.length_take]
    exact Nat.min_le_left _ _

/-- Witness for C5: the sample listing at `now = 100` with limit 5. -/
theorem listRecentQuestions_sorted_le_limit_witness :
    (listRecentQuestions sampleStore 100 5).Pairwise
      (fun a b => b.pubDate < a.pubDate ∨ (a.pubDate = b.pubDate ∧ b.id < a.id))
    ∧ (listRecentQuestions sampleStore 100 5).length ≤ 5 :=
  listRecentQuestions_sorted_le_limit sampleStore 100 5 (by decide)

/-- C6: `isPublished q now` is true exactly when `q`'s publish timestamp
is at most `now`; in particular the comparison is inclusive: a question
published exactly at `now` is published. -/
theorem isPublished_iff (q : Question) (now : Int) :
    (isPublished q now = true ↔ q.pubDate ≤ now)
    ∧ isPublished q q.pubDate = true := by
  constructor
  · simp [isPublished]
  · simp [isPublished]

/-- C7: a choice's tally starts at 0 on creation, and `recordVote` (the
only tally-mutating operation of the core) leaves every tally unchanged
or increases the tally of the voted choice by exactly 1; tallies are
naturals, hence never negative. -/
theorem tally_zero_start_and_step (s : Store) (qid cid : Nat) (now : Int)
    (cid2 qid2 : Nat) (t : String)
    (hcn : (s.choices.map Choice.id).Nodup)
    (hfresh : ∀ c ∈ s.choices, c.id ≠ cid2) :
    (∀ c ∈ s.choices,
        tally (recordVoteStore s qid cid now) c.id = some c.votes
        ∨ (c.id = cid ∧ tally (recordVoteStore s qid cid now) c.id = some (c.votes + 1)))
    ∧ tally (createChoice s cid2 qid2 t) cid2 = some 0 := by
  constructor
  · intro c hc
    have hself : tally s c.id = some c.votes := by
      unfold tally
      rw [find?_key_eq_of_mem Choice.id s.choices hcn c hc]
      rfl
    cases hg : getQuestionForInteraction s qid now with
    | error e =>
      have hrs : recordVoteStore s qid cid now = s := by
        unfold recordVoteStore recordVote
        simp only [hg]
      rw [hrs]
      exact Or.inl hself
    | ok q0 =>
      cases hfc : s.choices.find? (fun x => x.id == cid && x.questionId == q0.id) with
      | none =>
        have hrs : recordVoteStore s qid cid now = s := by
          unfold recordVoteStore recordVote
          simp only [hg, hfc]
        rw [hrs]
        exact Or.inl hself
      | some cf =>
        have hrs : recordVoteStore s qid cid now = bumpStore s q0.id cid := by
          unfold recordVoteStore recordVote
          simp only [hg, hfc]
        rw [hrs]
        have hcfm : cf ∈ s.choices := List.mem_of_find?_eq_some hfc
        have hcfp : cf.id = cid ∧ cf.questionId = q0.id := by
          have := List.find?_some hfc
          simpa using this
        by_cases hcid : c.id = cid
        · right
          refine ⟨hcid, ?_⟩
          have hceq : c = cf :=
            eq_of_mem_of_key_eq Choice.id s.choices hcn hc hcfm (by rw [hcid, hcfp.1])
          have hown : c.questionId = q0.id := by rw [hceq]; exact hcfp.2
          rw [← hcid]
          exact tally_bumpStore_self s q0.id c hcn hc hown
        · left
          have := tally_bumpStore_other s q0.id cid c hcn hc hcid
          rw [this]
          exact hself
  · unfold tally createChoice
    simp only [List.find?_append]
    have hnone : s.choices.find? (fun x => x.id == cid2) = none := by
      rw [List.find?_eq_none]
      intro x hx
      simpa using hfresh x hx
    rw [hnone]
    simp

/-- Witness for C7: in the sample store, a vote for choice 2 of question
1 and the creation of a fresh choice 9. -/
theorem tally_zero_start_and_step_witness :
    (∀ c ∈ sampleStore.choices,
        tally (recordVoteStore sampleStore 1 2 50) c.id = some c.votes
        ∨ (c.id = 2 ∧ tally (recordVoteStore sampleStore 1 2 50) c.id = some (c.votes + 1)))
    ∧ tally (createChoice sampleStore 9 1 "D") 9 = some 0 :=
  tally_zero_start_and_step sampleStore 1 2 50 9 1 "D" (by decide) (by decide)

/-- C8: `recordVote` is not idempotent — two successive accepted votes on
the same (question, choice) pair both succeed and raise the choice's tally
by 2. -/
theorem recordVote_not_idempotent (s : Store) (q : Question) (c : Choice) (now : Int)
    (hqn : (s.questions.map Question.id).Nodup)
    (hcn : (s.choices.map Choice.id).Nodup)
    (hq : q ∈ s.questions) (hd : isDisplayed s q now = true)
    (hc : c ∈ s.choices) (hown : c.questionId = q.id) :
    recordVote s q.id c.id now = .ok (bumpStore s q.id c.id, q.id)
    ∧ recordVote (bumpStore s q.id c.id) q.id c.id now =
        .ok (bumpStore (bumpStore s q.id c.id) q.id c.id, q.id)
    ∧ tally (bumpStore (bumpStore s q.id c.id) q.id c.id) c.id = some (c.votes + 2) := by
  have h1 := recordVote_ok s q c now hqn hq hd hc hown
  set s1 := bumpStore s q.id c.id with hs1
  have hqn1 : (s1.questions.map Question.id).Nodup := by
    rw [hs1, bumpStore_questions]
    exact hqn
  have hcn1 : (s1.choices.map Choice.id).Nodup := by
    rw [hs1, bumpStore_choiceIds]
    exact hcn
  have hq1 : q ∈ s1.questions := by
    rw [hs1, bumpStore_questions]
    exact hq
  have hd1 : isDisplayed s1 q now = true := by
    rw [hs1, isDisplayed_bumpStore]
    exact hd
  have hcond : (c.id == c.id && c.questionId == q.id) = true := by simp [hown]
  have hc1m : bumpChoice q.id c.id c ∈ s1.choices :=
    List.mem_map_of_mem (bumpChoice q.id c.id) hc
  have hc1own : (bumpChoice q.id c.id c).questionId = q.id := by
    rw [bumpChoice_questionId]
    exact hown
  have h2 := recordVote_ok s1 q (bumpChoice q.id c.id c) now hqn1 hq1 hd1 hc1m hc1own
  rw [bumpChoice_id] at h2
  have h3 := tally_bumpStore_self s1 q.id (bumpChoice q.id c.id c) hcn1 hc1m hc1own
  rw [bumpChoice_id] at h3
  have hv : (bumpChoice q.id c.id c).votes = c.votes + 1 := by
    unfold bumpChoice
    rw [if_pos hcond]
  rw [hv] at h3
  exact ⟨h1, h2, h3⟩

/-- Witness for C8: voting twice for choice 2 of question 1 in the sample
store raises its tally from 3 to 5. -/
theorem recordVote_not_idempotent_witness :
    recordVote sampleStore 1 2 100 = .ok (bumpStore sampleStore 1 2, 1)
    ∧ recordVote (bumpStore sampleStore 1 2) 1 2 100 =
        .ok (bumpStore (bumpStore sampleStore 1 2) 1 2, 1)
    ∧ tally (bumpStore (bumpStore sampleStore 1 2) 1 2) 2 = some (3 + 2) :=
  recordVote_not_idempotent sampleStore ⟨1, "Q1", 10⟩ ⟨2, 1, "B", 3⟩ 100
    (by decide) (by decide) (by decide) (by decide) (by decide) rfl

/-- C10: `was_published_recently` is true exactly when the publish
timestamp lies in the half-open day before `now`: false for future
timestamps, false for timestamps a full day old or older, true within the
last 24 hours. -/
theorem was_published_recently_spec (q : Question) (now : Int) :
    (now < q.pubDate → was_published_recently q now = false)
    ∧ (q.pubDate ≤ now - 86400 → was_published_recently q now = false)
    ∧ (now - 86400 < q.pubDate → q.pubDate ≤ now → was_published_recently q now = true)
    ∧ (was_published_recently q now = true ↔ now - 86400 < q.pubDate ∧ q.pubDate ≤ now) := by
  simp only [was_published_recently, decide_eq_true_eq, decide_eq_false_iff_not]
  refine ⟨?_, ?_, ?_, trivial⟩ <;> omega

/-- Witness for C10 at the three timestamps the test suite probes: 30
days in the future, one day and one second ago, and 23:59:59 ago. -/
theorem was_published_recently_spec_witness :
    was_published_recently ⟨1, "F", 2592000⟩ 0 = false
    ∧ was_published_recently ⟨2, "O", -86401⟩ 0 = false
    ∧ was_published_recently ⟨3, "R", -86399⟩ 0 = true :=
  ⟨(was_published_recently_spec ⟨1, "F", 2592000⟩ 0).1 (by decide),
   (was_published_recently_spec ⟨2, "O", -86401⟩ 0).2.1 (by decide),
   (was_published_recently_spec ⟨3, "R", -86399⟩ 0).2.2.1 (by decide) (by decide)⟩

end Polls
